import Mathlib

/-!
# bash-zoo `bin/select.js`: the interactive multi-select helper

A shallow embedding of `src/bin/select.js` and the properties of its
specification.

The script is JavaScript run by Node.  What the script itself does is
translated below line by line; what the platform does is modelled as follows.

* A JavaScript value is a `JsValue`, a JavaScript string a `String`.  A number is represented by the text
  that `Number::toString` gives it (the only two things the script does with
  a number are `String(n)` and a truthiness test, and both are functions of
  that text: a number is falsy exactly when its text is `0` or `NaN`).
* `JSON.parse`, module resolution of `enquirer` and the run of the
  `MultiSelect` prompt are not code of this repository: they are the fields
  of `Runtime`.
* The process environment read by the script (`process.env.BZ_PAYLOAD`,
  `process.argv[2]`, the file system, `process.stdin.isTTY`, standard input)
  is `Env`.
* An exception that nothing catches inside `async function main` rejects the
  promise `main()` returns; the script installs no handler, so the process
  dies on it.  This is the outcome `Exit.uncaughtTypeError`.  The prompt can
  die the same way inside its own `run()`: `Exit.uncaughtPromptError`.
-/

namespace Select

/-! ## JavaScript values -/

/-- JavaScript values as far as the script can meet them: the values
`JSON.parse` builds, and `undefined` (what reading an absent property gives). -/
inductive JsValue where
  | undefined
  | null
  | bool (b : Bool)
  | number (text : String)
  | string (s : String)
  | array (items : List JsValue)
  | object (fields : List (String × JsValue))

namespace JsValue

/-- The object has an own property `k`. -/
def hasOwn (k : String) : List (String × JsValue) → Bool
  | [] => false
  | (k1, _) :: rest => k1 == k || hasOwn k rest

/-- The value of own property `k`, `undefined` when there is none. -/
def lookup (k : String) : List (String × JsValue) → JsValue
  | [] => undefined
  | (k1, v) :: rest => if k1 == k then v else lookup k rest

/-- ToBoolean: what `v ? a : b`, `v || d` and `!v` test. -/
def truthy : JsValue → Bool
  | undefined => false
  | null => false
  | bool b => b
  | number text => !(text == "0" || text == "NaN")
  | string s => !(s == "")
  | array _ => true
  | object _ => true

/-- One step of `Array.prototype.join`: the text of the first element, then,
unless it was the last one, a comma and the text of the rest.  `none` when a
conversion threw. -/
def glue : Option String → Bool → Option String → Option String
  | some a, true, _ => some a
  | some a, false, some b => some (a ++ "," ++ b)
  | _, _, _ => none

mutual
/-- The text `Array.prototype.join` gives the elements (separator `,`). -/
def joinItems : List JsValue → Option String
  | [] => some ""
  | x :: rest => glue (itemText x) rest.isEmpty (joinItems rest)
termination_by structural l => l
/-- The text of one element inside `join`: empty for `undefined` and `null`,
the string form otherwise. -/
def itemText : JsValue → Option String
  | undefined => some ""
  | null => some ""
  | bool true => some "true"
  | bool false => some "false"
  | number text => some text
  | string s => some s
  | array items => joinItems items
  | object fields => if hasOwn "toString" fields then none else some "[object Object]"
termination_by structural v => v
end

/-- The global function `String(v)`; `none` when it throws a TypeError.  An
array is joined with commas.  An object built by `JSON.parse` converts through
`Object.prototype.toString` to `[object Object]`, unless it has an own
property `toString`: that property is never callable, `valueOf` returns the
object itself, and the conversion throws. -/
def toStr : JsValue → Option String
  | undefined => some "undefined"
  | null => some "null"
  | bool true => some "true"
  | bool false => some "false"
  | number text => some text
  | string s => some s
  | array items => joinItems items
  | object fields => if hasOwn "toString" fields then none else some "[object Object]"

/-- The property read `v.k` for the four keys the script reads (`title`,
`choices`, `name`, `message`), none of which any built-in prototype defines:
a TypeError (`none`) on `undefined` and `null`, the own property of an object,
`undefined` on every other value. -/
def getField (v : JsValue) (k : String) : Option JsValue :=
  match v with
  | undefined => none
  | null => none
  | object fields => some (lookup k fields)
  | _ => some undefined

/-- A JSON scalar, or `undefined`: every value but arrays and objects. -/
def isScalar : JsValue → Bool
  | array _ => false
  | object _ => false
  | _ => true

/-- The value is an object. -/
def isObject : JsValue → Bool
  | object _ => true
  | _ => false

end JsValue

open JsValue

/-! ## The process environment and the platform -/

/-- What the script reads from its process. -/
structure Env where
  /-- The value of `process.env.BZ_PAYLOAD`; `none` when the variable is unset. -/
  BZ_PAYLOAD : Option String
  /-- The value of `process.argv[2]`; `none` when no argument was given. -/
  argv2 : Option String
  /-- The result of `fs.readFileSync(path, 'utf8')`; `none` when it throws. -/
  readFileSync : String → Option String
  /-- The value of `process.stdin.isTTY`.  Node defines the property, as `true`,
  on a terminal stream only: it is `some true` when standard input is an
  interactive terminal and `none` (`undefined`) when it is a pipe or a file. -/
  stdinIsTTY : Option Bool
  /-- The result of `fs.readFileSync(0, 'utf8')`; `none` when it throws. -/
  readStdin : Option String

/-- One selectable row as handed to the prompt. -/
structure Choice where
  name : String
  message : String
  value : String
deriving DecidableEq, Repr

/-- The three standard streams. -/
inductive Stream where
  | stdin
  | stdout
  | stderr
deriving DecidableEq, Repr

/-- The options object the script passes to `new MultiSelect(...)`. -/
structure PromptConfig where
  name : String
  message : JsValue
  choices : List Choice
  hint : String
  limit : Nat
  stdin : Stream
  stdout : Stream

/-- How `await prompt.run()` ends. -/
inductive PromptResult where
  /-- The promise resolves to a value. -/
  | resolved (selected : JsValue)
  /-- The promise rejects (the user cancelled). -/
  | rejected
  /-- The promise never settles: `run()` throws inside its own executor, which
  rejects no promise the script awaits, and nothing handles the error.  This is
  what `enquirer` does when no choice is selectable, as with an empty choice
  list (`At least one choice must be selectable`). -/
  | died

/-- The platform: `JSON.parse`, the resolution of `enquirer`, and the prompt. -/
structure Runtime where
  /-- The result of `JSON.parse(text)`; `none` when it throws a SyntaxError. -/
  parse : String → Option JsValue
  /-- The empty text is not JSON. -/
  parse_empty : parse "" = none
  /-- Whether `require('enquirer')` succeeds. -/
  resolveNormal : Bool
  /-- Whether the require from `../.interactive` succeeds. -/
  resolveVendored : Bool
  /-- The interactive session of the prompt built from a configuration. -/
  run : PromptConfig → PromptResult

/-- How the process ends. -/
inductive Exit where
  /-- The process ends with this exit code. -/
  | code (n : Nat)
  /-- The promise of `main()` rejects with a TypeError that nothing handles. -/
  | uncaughtTypeError
  /-- An error thrown inside the prompt run, which nothing handles. -/
  | uncaughtPromptError
deriving DecidableEq, Repr

/-- The exit code of the process.  Node ends a process that dies on a promise
rejection nothing handles with exit code 1. -/
def Exit.status : Exit → Nat
  | Exit.code n => n
  | Exit.uncaughtTypeError => 1
  | Exit.uncaughtPromptError => 1

/-- What a run of the script does. -/
structure Outcome where
  /-- The chunks given to `process.stdout.write`, in order. -/
  stdout : List String
  /-- The lines given to `console.error`, in order. -/
  stderr : List String
  exit : Exit
  /-- Whether `requireEnquirer()` was called. -/
  required : Bool
  /-- The configuration the prompt was constructed and run with, if it was. -/
  prompt : Option PromptConfig

/-- The text on standard output: the chunks written, one after the other. -/
def Outcome.stdoutText (o : Outcome) : String :=
  String.join o.stdout

/-! ## The script -/

/-- The text of the payload diagnostic (line 40). -/
def payloadDiagnostic : String := "Invalid or missing JSON payload for select.js"

/-- The text of the dependency diagnostic (line 22). -/
def enquirerDiagnostic : String :=
  "Failed to load enquirer. The wizard attempts to auto-install it."

/-- The title used when the payload gives none (line 47). -/
def defaultTitle : String := "Select one or more items"

/-- The hint handed to the prompt (line 59). -/
def hintText : String := "Use arrow keys to move, space to select, enter to confirm"

/-- The result of input acquisition: the payload text, and which of the two
reads were attempted on the way. -/
structure Acquired where
  text : String
  fileRead : Bool
  stdinRead : Bool
deriving DecidableEq, Repr

/-- Lines 28 to 34 of `main`: the payload text.
`process.env.BZ_PAYLOAD || ''`; then, while the text is empty, the file named
by a non-empty `process.argv[2]`; then, while the text is empty and
`process.stdin.isTTY === false`, standard input.  A read that throws leaves
the text as it was. -/
def acquire (env : Env) : Acquired :=
  let json0 : String :=
    match env.BZ_PAYLOAD with
    | some s => s
    | none => ""
  let tryFile : Bool :=
    json0 == "" && (match env.argv2 with
      | some p => !(p == "")
      | none => false)
  let json1 : String :=
    if tryFile then
      match env.argv2 with
      | some p =>
        match env.readFileSync p with
        | some t => t
        | none => json0
      | none => json0
    else json0
  let tryStdin : Bool := json1 == "" && env.stdinIsTTY == some false
  let json2 : String :=
    if tryStdin then
      match env.readStdin with
      | some t => t
      | none => json1
    else json1
  { text := json2, fileRead := tryFile, stdinRead := tryStdin }

/-- The outcome of a run that ends in `process.exit(1)` after one diagnostic
line, before the prompt exists. -/
def fatal (diagnostic : String) (required : Bool) : Outcome :=
  { stdout := [], stderr := [diagnostic], exit := Exit.code 1,
    required := required, prompt := none }

/-- The outcome of a run in which computing the options of the prompt throws
a TypeError: the module is loaded, nothing is written, no prompt exists, and
the process dies on the rejection of `main()`. -/
def crash : Outcome :=
  { stdout := [], stderr := [], exit := Exit.uncaughtTypeError,
    required := true, prompt := none }

/-- Lines 13 to 25: `requireEnquirer()`.  Normal resolution first, then the
vendored path; when both throw, the diagnostic and `process.exit(1)`.
`Except.ok ()` is the module, `Except.error o` the end of the process. -/
def requireEnquirer (rt : Runtime) : Except Outcome Unit :=
  if rt.resolveNormal then Except.ok ()
  else if rt.resolveVendored then Except.ok ()
  else Except.error (fatal enquirerDiagnostic true)

/-- Lines 48 to 52, the callback of `map`: one entry of `choices` to one row.
`none` when reading a property of the entry, or a `String(...)`, throws. -/
def normalizeChoice (c : JsValue) : Option Choice :=
  match getField c "name", getField c "message" with
  | some n, some m =>
    match toStr n, (if truthy m then toStr m else toStr n) with
    | some name, some message => some { name := name, message := message, value := name }
    | _, _ => none
  | _, _ => none

/-- The method `map` over the entries with the callback `normalizeChoice`. -/
def mapChoices : List JsValue → Option (List Choice)
  | [] => some []
  | c :: rest =>
    match normalizeChoice c, mapChoices rest with
    | some row, some rows => some (row :: rows)
    | _, _ => none

/-- Line 47: `data.title || 'Select one or more items'`. -/
def titleOf (data : JsValue) : Option JsValue :=
  match getField data "title" with
  | some t => some (if truthy t then t else JsValue.string defaultTitle)
  | none => none

/-- Lines 48 to 52: `(data.choices || []).map(...)`.  A truthy `choices` that
is not an array has no method `map`: a TypeError. -/
def choicesOf (data : JsValue) : Option (List Choice) :=
  match getField data "choices" with
  | some v =>
    if truthy v then
      match v with
      | JsValue.array items => mapChoices items
      | _ => none
    else some []
  | none => none

/-- Line 61: `Math.max(10, Math.min(choices.length, 20))`. -/
def limitOf (choices : List Choice) : Nat :=
  Nat.max 10 (Nat.min choices.length 20)

/-- Lines 47 to 65: the options of `new MultiSelect(...)`; `none` when
computing them throws a TypeError. -/
def buildConfig (data : JsValue) : Option PromptConfig :=
  match titleOf data with
  | none => none
  | some title =>
    match choicesOf data with
    | none => none
    | some choices =>
      some { name := "selection", message := title, choices := choices,
             hint := hintText, limit := limitOf choices,
             stdin := Stream.stdin, stdout := Stream.stderr }

/-- Line 70: `Array.isArray(selected) ? selected : [selected]`. -/
def asSequence (selected : JsValue) : List JsValue :=
  match selected with
  | JsValue.array items => items
  | v => [v]

/-- Lines 70 to 72: the `forEach`.  The chunks written, in order, and whether
the loop ran to its end (`false`: a `String(name)` threw, after the chunks
before it had been written). -/
def emit : List JsValue → List String × Bool
  | [] => ([], true)
  | x :: rest =>
    match toStr x with
    | none => ([], false)
    | some s => ((s ++ "\n") :: (emit rest).1, (emit rest).2)

/-- Lines 67 to 76: the `try` around `await prompt.run()`.  A resolved value
is written element by element and the process then ends normally; a rejection,
or an exception of the loop, is caught and answered with `process.exit(0)`; a
prompt that dies takes the process with it, the `catch` never running. -/
def finish (cfg : PromptConfig) (result : PromptResult) : Outcome :=
  match result with
  | PromptResult.rejected =>
    { stdout := [], stderr := [], exit := Exit.code 0,
      required := true, prompt := some cfg }
  | PromptResult.resolved selected =>
    { stdout := (emit (asSequence selected)).1, stderr := [], exit := Exit.code 0,
      required := true, prompt := some cfg }
  | PromptResult.died =>
    { stdout := [], stderr := [], exit := Exit.uncaughtPromptError,
      required := true, prompt := some cfg }

/-- Lines 27 to 77: `main()`. -/
def main (rt : Runtime) (env : Env) : Outcome :=
  match rt.parse (acquire env).text with
  | none => fatal payloadDiagnostic false
  | some data =>
    match requireEnquirer rt with
    | Except.error o => o
    | Except.ok () =>
      match buildConfig data with
      | none => crash
      | some cfg => finish cfg (rt.run cfg)

/-! ## Notions of the specification -/

/-- The choices list of a payload, as the specification reads it: the entries
of the array under `choices`, no entry when there is no such array. -/
def choiceEntries (data : JsValue) : List JsValue :=
  match data with
  | JsValue.object fields =>
    match lookup "choices" fields with
    | JsValue.array items => items
    | _ => []
  | _ => []

/-- A choice descriptor of the data model: an object whose `name` and
`message`, where present, are JSON scalars. -/
def isChoiceSpec (c : JsValue) : Bool :=
  match c with
  | JsValue.object fields => isScalar (lookup "name" fields) && isScalar (lookup "message" fields)
  | _ => false

/-- A selection request of the data model: an object whose `choices` is absent
or an array of choice descriptors. -/
def isSelectionRequest (data : JsValue) : Bool :=
  match data with
  | JsValue.object fields =>
    match lookup "choices" fields with
    | JsValue.undefined => true
    | JsValue.array items => items.all isChoiceSpec
    | _ => false
  | _ => false

/-- The reading of the output by the caller, as the specification words it:
the text split on the newline character, the final piece dropped. -/
def recoverLines (text : String) : List String :=
  ((text.data.splitOn (Char.ofNat 10)).map String.mk).dropLast

/-- The options of a prompt with the default title and no row. -/
def emptyConfig : PromptConfig :=
  { name := "selection", message := JsValue.string defaultTitle, choices := [],
    hint := hintText, limit := 10, stdin := Stream.stdin, stdout := Stream.stderr }

/-! ## Sample runs -/

/-- The payload of the specification, property 4:
`{"title":"Pick","choices":[{"name":"a"},{"name":"b","message":"B"}]}`. -/
def pickText : String :=
  "\x7b\"title\":\"Pick\",\"choices\":[\x7b\"name\":\"a\"\x7d,\x7b\"name\":\"b\",\"message\":\"B\"\x7d]\x7d"

/-- The value `JSON.parse` gives `pickText`. -/
def pickData : JsValue :=
  JsValue.object [("title", JsValue.string "Pick"),
    ("choices", JsValue.array [
      JsValue.object [("name", JsValue.string "a")],
      JsValue.object [("name", JsValue.string "b"), ("message", JsValue.string "B")]])]

/-- A payload whose entries carry falsy messages:
`{"choices":[{"name":"a","message":0},{"name":"b","message":false},{"name":"c","message":""}]}`. -/
def falsyText : String :=
  "\x7b\"choices\":[\x7b\"name\":\"a\",\"message\":0\x7d,\x7b\"name\":\"b\",\"message\":false\x7d,\x7b\"name\":\"c\",\"message\":\"\"\x7d]\x7d"

/-- The value `JSON.parse` gives `falsyText`. -/
def falsyData : JsValue :=
  JsValue.object [("choices", JsValue.array [
    JsValue.object [("name", JsValue.string "a"), ("message", JsValue.number "0")],
    JsValue.object [("name", JsValue.string "b"), ("message", JsValue.bool false)],
    JsValue.object [("name", JsValue.string "c"), ("message", JsValue.string "")]])]

/-- A payload with one name that holds a newline: `{"choices":[{"name":"a\nb"}]}`. -/
def newlineText : String :=
  "\x7b\"choices\":[\x7b\"name\":\"a\\nb\"\x7d]\x7d"

/-- The value `JSON.parse` gives `newlineText`. -/
def newlineData : JsValue :=
  JsValue.object [("choices", JsValue.array [JsValue.object [("name", JsValue.string "a\nb")]])]

/-- The options the script computes from `newlineData`. -/
def newlineConfig : PromptConfig :=
  { name := "selection", message := JsValue.string defaultTitle,
    choices := [{ name := "a\nb", message := "a\nb", value := "a\nb" }],
    hint := hintText, limit := 10, stdin := Stream.stdin, stdout := Stream.stderr }

/-- The results of `JSON.parse` on the texts of the sample runs: the payloads
above, the number `5`, and `null`.  The text `{`, the empty text and every
other text of the sample runs are not JSON. -/
def sampleParse (text : String) : Option JsValue :=
  if text = pickText then some pickData
  else if text = falsyText then some falsyData
  else if text = newlineText then some newlineData
  else if text = "5" then some (JsValue.number "5")
  else if text = "null" then some JsValue.null
  else none

/-- A platform for the sample runs: `enquirer` resolves normally, and the user
answers with `answer`. -/
def sampleRuntime (answer : PromptConfig → PromptResult) : Runtime :=
  { parse := sampleParse, parse_empty := rfl,
    resolveNormal := true, resolveVendored := false, run := answer }

/-- The user selects every row and confirms.  With no row there is nothing to
select: `enquirer` throws inside `run()`. -/
def selectAll (cfg : PromptConfig) : PromptResult :=
  match cfg.choices with
  | [] => PromptResult.died
  | _ :: _ =>
    PromptResult.resolved (JsValue.array (cfg.choices.map (fun row => JsValue.string row.name)))

/-- The user cancels. -/
def cancel (_cfg : PromptConfig) : PromptResult :=
  PromptResult.rejected

/-- The process is started with the payload in `BZ_PAYLOAD`, no argument, and
a terminal as standard input. -/
def envWith (payload : String) : Env :=
  { BZ_PAYLOAD := some payload, argv2 := none, readFileSync := fun _ => none,
    stdinIsTTY := some true, readStdin := none }

/-- The process is started with `BZ_PAYLOAD` unset, no argument, and the
payload piped into standard input: `process.stdin.isTTY` is `undefined`. -/
def envPiped (payload : String) : Env :=
  { BZ_PAYLOAD := none, argv2 := none, readFileSync := fun _ => none,
    stdinIsTTY := none, readStdin := some payload }

/-! ## Lemmas on the script -/

/-- A non-empty `BZ_PAYLOAD` is the payload text, and no other source is read. -/
theorem acquire_env_var (env : Env) (s : String) (hs : env.BZ_PAYLOAD = some s)
    (hne : s ≠ "") : acquire env = { text := s, fileRead := false, stdinRead := false } := by
  simp [acquire, hs, hne]

/-- Standard input is read only when `process.stdin.isTTY` is the value `false`
itself: never on a terminal, and never when the property is `undefined`. -/
theorem acquire_stdinRead (env : Env) (h : (acquire env).stdinRead = true) :
    env.stdinIsTTY = some false := by
  simp only [acquire, Bool.and_eq_true, beq_iff_eq] at h
  exact h.2

/-- The chunks written for elements that all have a string form. -/
theorem emit_of_texts (items : List JsValue) (texts : List String)
    (h : items.map toStr = texts.map some) :
    emit items = (texts.map (fun s => s ++ "\n"), true) := by
  induction items generalizing texts with
  | nil =>
    cases texts with
    | nil => rfl
    | cons t ts => simp at h
  | cons x rest ih =>
    cases texts with
    | nil => simp at h
    | cons t ts =>
      simp only [List.map_cons, List.cons.injEq] at h
      simp [emit, h.1, ih ts h.2]

/-- The only way `requireEnquirer` ends the process. -/
theorem requireEnquirer_error (rt : Runtime) (o : Outcome)
    (h : requireEnquirer rt = Except.error o) : o = fatal enquirerDiagnostic true := by
  unfold requireEnquirer at h
  split at h
  · cases h
  · split at h
    · cases h
    · cases h; rfl

/-- Once the prompt is constructed, the outcome records its configuration. -/
theorem finish_prompt (cfg : PromptConfig) (r : PromptResult) :
    (finish cfg r).prompt = some cfg := by
  cases r <;> rfl

/-- The run on the path that reaches the prompt. -/
theorem main_reached (rt : Runtime) (env : Env) (data : JsValue) (cfg : PromptConfig)
    (hparse : rt.parse (acquire env).text = some data)
    (hload : requireEnquirer rt = Except.ok ())
    (hcfg : buildConfig data = some cfg) :
    main rt env = finish cfg (rt.run cfg) := by
  simp [main, hparse, hload, hcfg]

/-- A run that constructed the prompt parsed the payload, loaded the library and
computed the options without an exception. -/
theorem main_prompt_some (rt : Runtime) (env : Env) (cfg : PromptConfig)
    (h : (main rt env).prompt = some cfg) :
    ∃ data, rt.parse (acquire env).text = some data ∧ requireEnquirer rt = Except.ok () ∧
      buildConfig data = some cfg := by
  unfold main at h
  cases hp : rt.parse (acquire env).text with
  | none => simp [hp, fatal] at h
  | some data =>
    refine ⟨data, rfl, ?_⟩
    simp only [hp] at h
    cases hr : requireEnquirer rt with
    | error o =>
      exfalso
      simp only [hr] at h
      rw [requireEnquirer_error rt o hr] at h
      simp [fatal] at h
    | ok u =>
      refine ⟨rfl, ?_⟩
      simp only [hr] at h
      cases hb : buildConfig data with
      | none => simp [hb, crash] at h
      | some c =>
        simp only [hb, finish_prompt] at h
        exact h

/-- A run that constructed the prompt ends as the `try` block ends. -/
theorem main_of_prompt (rt : Runtime) (env : Env) (cfg : PromptConfig)
    (h : (main rt env).prompt = some cfg) :
    main rt env = finish cfg (rt.run cfg) := by
  obtain ⟨data, hparse, hload, hcfg⟩ := main_prompt_some rt env cfg h
  exact main_reached rt env data cfg hparse hload hcfg

/-- When `map` returns, it returns one row per entry, the i-th row made from the
i-th entry. -/
theorem mapChoices_spec (items : List JsValue) (rows : List Choice)
    (h : mapChoices items = some rows) :
    rows.length = items.length ∧
    ∀ (i : Nat) (c : JsValue) (row : Choice),
      items[i]? = some c → rows[i]? = some row → normalizeChoice c = some row := by
  induction items generalizing rows with
  | nil =>
    simp [mapChoices] at h
    subst h
    simp
  | cons x rest ih =>
    unfold mapChoices at h
    cases hx : normalizeChoice x with
    | none => simp [hx] at h
    | some r =>
      cases hrest : mapChoices rest with
      | none => simp [hx, hrest] at h
      | some rs =>
        simp [hx, hrest] at h
        subst h
        obtain ⟨hlen, hget⟩ := ih rs hrest
        refine ⟨by simp [hlen], ?_⟩
        intro i c row hc hrow
        cases i with
        | zero =>
          simp at hc hrow
          subst hc; subst hrow; exact hx
        | succ j =>
          simp at hc hrow
          exact hget j c row hc hrow

/-- The rows computed from a payload are the rows of its choices list. -/
theorem choicesOf_entries (data : JsValue) (rows : List Choice)
    (h : choicesOf data = some rows) :
    mapChoices (choiceEntries data) = some rows := by
  cases data with
  | undefined => simp [choicesOf, getField] at h
  | null => simp [choicesOf, getField] at h
  | bool b => simp [choicesOf, getField, truthy] at h; subst h; rfl
  | number t => simp [choicesOf, getField, truthy] at h; subst h; rfl
  | string s => simp [choicesOf, getField, truthy] at h; subst h; rfl
  | array xs => simp [choicesOf, getField, truthy] at h; subst h; rfl
  | object fields =>
    simp only [choicesOf, getField] at h
    simp only [choiceEntries]
    cases hv : lookup "choices" fields with
    | array items => simpa [hv, truthy] using h
    | undefined => simp [hv, truthy] at h; subst h; rfl
    | null => simp [hv, truthy] at h; subst h; rfl
    | bool b => cases b <;> simp [hv, truthy] at h; subst h; rfl
    | number t =>
      by_cases ht : truthy (number t) = true
      · simp [hv, ht] at h
      · simp [hv, ht] at h; subst h; rfl
    | string t =>
      by_cases ht : truthy (string t) = true
      · simp [hv, ht] at h
      · simp [hv, ht] at h; subst h; rfl
    | object fs => simp [hv, truthy] at h

/-- The title, rows and limit of the options that `buildConfig` computes. -/
theorem buildConfig_spec (data : JsValue) (cfg : PromptConfig)
    (h : buildConfig data = some cfg) :
    titleOf data = some cfg.message ∧ choicesOf data = some cfg.choices ∧
      cfg.limit = limitOf cfg.choices := by
  unfold buildConfig at h
  cases ht : titleOf data with
  | none => simp [ht] at h
  | some t =>
    cases hc : choicesOf data with
    | none => simp [ht, hc] at h
    | some rows =>
      simp [ht, hc] at h
      subst h
      simp

/-- Every scalar has a string form. -/
theorem toStr_scalar (v : JsValue) (h : isScalar v = true) : ∃ s, toStr v = some s := by
  cases v with
  | undefined => exact ⟨_, rfl⟩
  | null => exact ⟨_, rfl⟩
  | bool b => cases b <;> exact ⟨_, rfl⟩
  | number t => exact ⟨_, rfl⟩
  | string s => exact ⟨_, rfl⟩
  | array xs => simp [isScalar] at h
  | object fs => simp [isScalar] at h

/-- Every choice descriptor of the data model gives a row. -/
theorem normalizeChoice_spec (c : JsValue) (h : isChoiceSpec c = true) :
    ∃ row, normalizeChoice c = some row := by
  cases c with
  | object fields =>
    simp only [isChoiceSpec, Bool.and_eq_true] at h
    obtain ⟨n, hn⟩ := toStr_scalar _ h.1
    obtain ⟨m, hm⟩ := toStr_scalar _ h.2
    by_cases ht : truthy (lookup "message" fields) = true
    · exact ⟨⟨n, m, n⟩, by simp [normalizeChoice, getField, hn, hm, ht]⟩
    · exact ⟨⟨n, n, n⟩, by simp [normalizeChoice, getField, hn, hm, ht]⟩
  | _ => simp [isChoiceSpec] at h

/-- A list of choice descriptors of the data model gives a list of rows. -/
theorem mapChoices_all (items : List JsValue) (h : items.all isChoiceSpec = true) :
    ∃ rows, mapChoices items = some rows := by
  induction items with
  | nil => exact ⟨[], rfl⟩
  | cons x rest ih =>
    simp only [List.all_cons, Bool.and_eq_true] at h
    obtain ⟨row, hrow⟩ := normalizeChoice_spec x h.1
    obtain ⟨rows, hrows⟩ := ih h.2
    exact ⟨row :: rows, by simp [mapChoices, hrow, hrows]⟩

/-- The options are computed, without an exception, for every selection
request of the data model. -/
theorem buildConfig_of_request (data : JsValue) (h : isSelectionRequest data = true) :
    ∃ cfg, buildConfig data = some cfg := by
  cases data with
  | object fields =>
    simp only [isSelectionRequest] at h
    have hc : ∃ rows, choicesOf (object fields) = some rows := by
      simp only [choicesOf, getField]
      cases hv : lookup "choices" fields with
      | undefined => exact ⟨[], by simp [truthy]⟩
      | array items =>
        rw [hv] at h
        obtain ⟨rows, hrows⟩ := mapChoices_all items h
        exact ⟨rows, by simp [truthy, hrows]⟩
      | _ => simp [hv] at h
    obtain ⟨rows, hrows⟩ := hc
    simp [buildConfig, titleOf, getField, hrows]
  | _ => simp [isSelectionRequest] at h

/-- What the row made from an entry holds. -/
theorem normalizeChoice_fields (c : JsValue) (row : Choice)
    (h : normalizeChoice c = some row) :
    ∃ n m, getField c "name" = some n ∧ getField c "message" = some m ∧
      toStr n = some row.name ∧ row.value = row.name ∧
      (truthy m = true → toStr m = some row.message) ∧
      (truthy m = false → row.message = row.name) := by
  unfold normalizeChoice at h
  cases hn : getField c "name" with
  | none => simp [hn] at h
  | some n =>
    cases hm : getField c "message" with
    | none => simp [hn, hm] at h
    | some m =>
      refine ⟨n, m, rfl, rfl, ?_⟩
      simp only [hn, hm] at h
      cases hs : toStr n with
      | none => simp [hs] at h
      | some name =>
        by_cases ht : truthy m = true
        · cases hms : toStr m with
          | none => simp [hs, ht, hms] at h
          | some message =>
            simp [hs, ht, hms] at h
            subst h
            simp [ht]
        · simp [hs, ht] at h
          subst h
          simp [ht]

/-- Every row comes from an entry. -/
theorem mapChoices_mem (items : List JsValue) (rows : List Choice)
    (h : mapChoices items = some rows) (row : Choice) (hrow : row ∈ rows) :
    ∃ c, c ∈ items ∧ normalizeChoice c = some row := by
  obtain ⟨i, hi⟩ := List.getElem?_of_mem hrow
  obtain ⟨hlen, hget⟩ := mapChoices_spec items rows h
  have hlt : i < items.length := by
    rw [← hlen]
    by_contra hge
    rw [List.getElem?_eq_none (Nat.le_of_not_lt hge)] at hi
    cases hi
  exact ⟨items[i], List.getElem_mem hlt, hget i items[i] row (List.getElem?_eq_getElem hlt) hi⟩

/-- Splitting newline-terminated pieces that hold no newline gives the pieces
back, and one empty piece after them. -/
theorem splitOn_lines (lines : List (List Char)) (h : ∀ l ∈ lines, Char.ofNat 10 ∉ l) :
    (lines.map (fun l => l ++ [Char.ofNat 10])).flatten.splitOn (Char.ofNat 10)
      = lines ++ [[]] := by
  induction lines with
  | nil => rfl
  | cons l rest ih =>
    have hl : ∀ x ∈ l, ¬ ((fun y => y == Char.ofNat 10) x = true) := by
      intro x hx hxe
      have : x = Char.ofNat 10 := by simpa using hxe
      exact h l (List.mem_cons_self l rest) (this ▸ hx)
    have hrest := ih (fun l1 hl1 => h l1 (List.mem_cons_of_mem l hl1))
    simp only [List.map_cons, List.flatten_cons, List.append_assoc, List.singleton_append,
      List.cons_append]
    rw [List.splitOn, List.splitOnP_first _ l hl (Char.ofNat 10) (by simp)]
    rw [List.splitOn] at hrest
    rw [List.nil_append, hrest]

/-- The caller recovers names without a newline from their emitted text. -/
theorem recoverLines_join (names : List String) (h : ∀ n ∈ names, Char.ofNat 10 ∉ n.data) :
    recoverLines (String.join (names.map (fun s => s ++ "\n"))) = names := by
  have hdata : (String.join (names.map (fun s => s ++ "\n"))).data
      = ((names.map String.data).map (fun l => l ++ [Char.ofNat 10])).flatten := by
    rw [String.data_join]
    congr 1
    simp only [List.map_map]
    apply List.map_congr_left
    intro s _
    simp [String.data_append]
  have hno : ∀ l ∈ names.map String.data, Char.ofNat 10 ∉ l := by
    intro l hl
    obtain ⟨n, hn, rfl⟩ := List.mem_map.mp hl
    exact h n hn
  unfold recoverLines
  rw [hdata, splitOn_lines _ hno]
  simp only [List.map_append, List.map_cons, List.map_nil, List.dropLast_concat, List.map_map]
  conv_rhs => rw [← List.map_id names]
  apply List.map_congr_left
  intro s _
  rfl

/-- The options of the prompt a run constructed are those of the parsed payload. -/
theorem parsed_config (rt : Runtime) (env : Env) (data : JsValue) (cfg : PromptConfig)
    (hparse : rt.parse (acquire env).text = some data)
    (hprompt : (main rt env).prompt = some cfg) :
    buildConfig data = some cfg := by
  obtain ⟨d, hd, _, hcfg⟩ := main_prompt_some rt env cfg hprompt
  rw [hparse] at hd
  cases hd
  exact hcfg

/-- The rows of the computed options are the rows of the choices list. -/
theorem config_rows (data : JsValue) (cfg : PromptConfig) (h : buildConfig data = some cfg) :
    mapChoices (choiceEntries data) = some cfg.choices :=
  choicesOf_entries data cfg.choices (buildConfig_spec data cfg h).2.1

/-- A selection request of the data model reaches the prompt when the library
loads. -/
theorem request_reaches_prompt (rt : Runtime) (env : Env) (data : JsValue)
    (hparse : rt.parse (acquire env).text = some data)
    (hreq : isSelectionRequest data = true)
    (hload : requireEnquirer rt = Except.ok ()) :
    ∃ cfg, (main rt env).prompt = some cfg := by
  obtain ⟨cfg, hcfg⟩ := buildConfig_of_request data hreq
  exact ⟨cfg, by rw [main_reached rt env data cfg hparse hload hcfg, finish_prompt]⟩

/-- The limit, in the words of the specification. -/
theorem limitOf_eq (rows : List Choice) :
    limitOf rows = max 10 (min rows.length 20) := rfl

/-- A list whose elements are all strings with a property is a list of such
strings. -/
theorem strings_of_forall (P : String → Prop) (l : List JsValue)
    (h : ∀ x ∈ l, ∃ t, x = JsValue.string t ∧ P t) :
    ∃ texts : List String, l = texts.map JsValue.string ∧ ∀ t ∈ texts, P t := by
  induction l with
  | nil => exact ⟨[], rfl, by simp⟩
  | cons x rest ih =>
    obtain ⟨t, hx, hP⟩ := h x (List.mem_cons_self x rest)
    obtain ⟨ts, hts, hPs⟩ := ih (fun y hy => h y (List.mem_cons_of_mem x hy))
    refine ⟨t :: ts, by simp [hx, hts], ?_⟩
    intro u hu
    rcases List.mem_cons.mp hu with hu | hu
    · exact hu ▸ hP
    · exact hPs u hu

/-- The chunks written for a list of strings. -/
theorem emit_strings (texts : List String) :
    emit (texts.map JsValue.string) = (texts.map (fun s => s ++ "\n"), true) :=
  emit_of_texts _ texts (by simp [Function.comp_def, toStr])

/-- The chunks a run writes when the prompt resolves to strings. -/
theorem stdout_of_strings (rt : Runtime) (env : Env) (cfg : PromptConfig)
    (selected : JsValue) (texts : List String)
    (hprompt : (main rt env).prompt = some cfg)
    (hrun : rt.run cfg = PromptResult.resolved selected)
    (hseq : asSequence selected = texts.map JsValue.string) :
    (main rt env).stdout = texts.map (fun s => s ++ "\n") := by
  rw [main_of_prompt rt env cfg hprompt, hrun]
  simp [finish, hseq, emit_strings]

/-- What is written comes from the choices list.  For every successfully
parsed payload, every prompt the run constructs from it, and every resolved
value of the prompt whose elements are names or values of rows of the choice
list handed to the prompt: one chunk is written per element, and every chunk
written to standard output is the string form of the name of some entry of the
payload's choices list, followed by the newline; when no row name holds a
newline, every line of the text on standard output is the string form of the
name of some entry. -/
theorem chunks_are_entry_names (rt : Runtime) (env : Env) (data : JsValue)
    (cfg : PromptConfig) (selected : JsValue)
    (hparse : rt.parse (acquire env).text = some data)
    (hprompt : (main rt env).prompt = some cfg)
    (hrun : rt.run cfg = PromptResult.resolved selected)
    (hsel : ∀ x ∈ asSequence selected, ∃ row ∈ cfg.choices,
      x = JsValue.string row.name ∨ x = JsValue.string row.value) :
    (main rt env).stdout.length = (asSequence selected).length ∧
    (∀ w ∈ (main rt env).stdout, ∃ c ∈ choiceEntries data, ∃ n s,
      getField c "name" = some n ∧ toStr n = some s ∧ w = s ++ "\n") ∧
    ((∀ row ∈ cfg.choices, Char.ofNat 10 ∉ row.name.data) →
      ∀ line ∈ recoverLines (main rt env).stdoutText, ∃ c ∈ choiceEntries data, ∃ n,
        getField c "name" = some n ∧ toStr n = some line) := by
  have hcfg := parsed_config rt env data cfg hparse hprompt
  have hrows := config_rows data cfg hcfg
  have hnames : ∀ x ∈ asSequence selected, ∃ t, x = JsValue.string t ∧
      ((∃ row ∈ cfg.choices, t = row.name) ∧
       ∃ c ∈ choiceEntries data, ∃ n, getField c "name" = some n ∧ toStr n = some t) := by
    intro x hx
    obtain ⟨row, hrow, hxr⟩ := hsel x hx
    obtain ⟨c, hc, hnorm⟩ := mapChoices_mem _ _ hrows row hrow
    obtain ⟨n, m, hn, _, hname, hval, _, _⟩ := normalizeChoice_fields c row hnorm
    refine ⟨row.name, ?_, ⟨row, hrow, rfl⟩, c, hc, n, hn, hname⟩
    rcases hxr with h | h
    · exact h
    · rw [h, hval]
  obtain ⟨texts, hseq, htexts⟩ := strings_of_forall _ _ hnames
  have hout := stdout_of_strings rt env cfg selected texts hprompt hrun hseq
  refine ⟨by rw [hout, hseq]; simp, ?_, ?_⟩
  · intro w hw
    rw [hout] at hw
    obtain ⟨t, ht, rfl⟩ := List.mem_map.mp hw
    obtain ⟨_, c, hc, n, hn, hs⟩ := htexts t ht
    exact ⟨c, hc, n, t, hn, hs, rfl⟩
  · intro hnl line hline
    have hfree : ∀ t ∈ texts, Char.ofNat 10 ∉ t.data := by
      intro t ht
      obtain ⟨⟨row, hrow, rfl⟩, _⟩ := htexts t ht
      exact hnl row hrow
    rw [Outcome.stdoutText, hout, recoverLines_join texts hfree] at hline
    exact (htexts line hline).2

/-! ## The claims -/

/-- C1 (result emission).  Whenever the run constructed the prompt and the
prompt resolves to `selected`, the process ends with exit code 0 and: when
`selected` is a sequence whose elements have the string forms `texts`, the
chunks written to standard output are exactly the `texts`, in that order, each
followed by one newline, and the text on standard output is their
concatenation; when `selected` is not a sequence and has the string form `s`,
standard output is `s` followed by one newline; the sequence of `a` and `b`
gives exactly `a\nb\n`; the empty sequence gives empty output. -/
theorem C1_result_emission (rt : Runtime) (env : Env) (cfg : PromptConfig) (selected : JsValue)
    (hprompt : (main rt env).prompt = some cfg)
    (hrun : rt.run cfg = PromptResult.resolved selected) :
    (main rt env).exit = Exit.code 0 ∧
    (∀ (items : List JsValue) (texts : List String),
      selected = JsValue.array items → items.map toStr = texts.map some →
      (main rt env).stdout = texts.map (fun s => s ++ "\n") ∧
      (main rt env).stdoutText = String.join (texts.map (fun s => s ++ "\n"))) ∧
    (∀ (s : String),
      (∀ (items : List JsValue), selected ≠ JsValue.array items) → toStr selected = some s →
      (main rt env).stdout = [s ++ "\n"] ∧ (main rt env).stdoutText = s ++ "\n") ∧
    (selected = JsValue.array [JsValue.string "a", JsValue.string "b"] →
      (main rt env).stdoutText = "a\nb\n") ∧
    (selected = JsValue.array [] → (main rt env).stdoutText = "") := by
  have hmain := main_of_prompt rt env cfg hprompt
  rw [hrun] at hmain
  have hseq : ∀ (items : List JsValue) (texts : List String), selected = JsValue.array items → items.map toStr = texts.map some →
      (main rt env).stdout = texts.map (fun s => s ++ "\n") := by
    intro items texts hsel htexts
    subst hsel
    rw [hmain]
    simp [finish, asSequence, emit_of_texts items texts htexts]
  refine ⟨by rw [hmain]; rfl, ?_, ?_, ?_, ?_⟩
  · intro items texts hsel htexts
    exact ⟨hseq items texts hsel htexts, by simp [Outcome.stdoutText, hseq items texts hsel htexts]⟩
  · intro s hns hs
    have hw : (main rt env).stdout = [s ++ "\n"] := by
      rw [hmain]
      have hseq1 : asSequence selected = [selected] := by
        cases selected with
        | array items => exact absurd rfl (hns items)
        | _ => rfl
      simp [finish, hseq1, emit, hs]
    exact ⟨hw, by simp [Outcome.stdoutText, hw, String.join]⟩
  · intro hsel
    have := hseq _ ["a", "b"] hsel rfl
    simp [Outcome.stdoutText, this]
    rfl
  · intro hsel
    have := hseq _ [] hsel rfl
    simp [Outcome.stdoutText, this]
    rfl

/-- Witness of C1: the payload of the specification, both rows selected. -/
theorem C1_result_emission_witness :
    (main (sampleRuntime selectAll) (envWith pickText)).prompt.isSome = true ∧
    (main (sampleRuntime selectAll) (envWith pickText)).exit = Exit.code 0 ∧
    (main (sampleRuntime selectAll) (envWith pickText)).stdoutText = "a\nb\n" :=
  have h := C1_result_emission (sampleRuntime selectAll) (envWith pickText)
    { name := "selection", message := JsValue.string "Pick",
      choices := [⟨"a", "a", "a"⟩, ⟨"b", "B", "b"⟩], hint := hintText, limit := 10,
      stdin := Stream.stdin, stdout := Stream.stderr }
    (JsValue.array [JsValue.string "a", JsValue.string "b"]) rfl rfl
  ⟨rfl, h.1, h.2.2.2.1 rfl⟩

/-- C2 (payload error).  When the acquired payload text is not valid JSON, and
in particular when it is empty, the run prints the payload diagnostic, and
nothing else, to the error stream, ends with exit code 1, writes nothing to
standard output, and neither loads nor constructs nor runs the prompt. -/
theorem C2_payload_error (rt : Runtime) (env : Env)
    (h : rt.parse (acquire env).text = none ∨ (acquire env).text = "") :
    (main rt env).stderr = [payloadDiagnostic] ∧
    (main rt env).exit = Exit.code 1 ∧
    (main rt env).stdout = [] ∧
    (main rt env).stdoutText = "" ∧
    (main rt env).required = false ∧
    (main rt env).prompt = none := by
  have hnone : rt.parse (acquire env).text = none := by
    rcases h with h | h
    · exact h
    · rw [h]; exact rt.parse_empty
  have hmain : main rt env = fatal payloadDiagnostic false := by
    simp [main, hnone]
  rw [hmain]
  exact ⟨rfl, rfl, rfl, rfl, rfl, rfl⟩

/-- Witness of C2: the payload text `{`. -/
theorem C2_payload_error_witness :
    (sampleRuntime selectAll).parse (acquire (envWith "\x7b")).text = none ∧
    (main (sampleRuntime selectAll) (envWith "\x7b")).stderr = [payloadDiagnostic] ∧
    (main (sampleRuntime selectAll) (envWith "\x7b")).exit = Exit.code 1 ∧
    (main (sampleRuntime selectAll) (envWith "\x7b")).stdoutText = "" :=
  have h := C2_payload_error (sampleRuntime selectAll) (envWith "\x7b") (Or.inl rfl)
  ⟨rfl, h.1, h.2.1, h.2.2.2.1⟩

/-- C3, as the specification states it, fails: the payload text `5` is valid
JSON whose top-level value is a number, and the run does not print the payload
diagnostic, loads the prompt library, and constructs and runs the prompt, with
no row and limit 10. -/
theorem C3_counterexample :
    (sampleRuntime selectAll).parse (acquire (envWith "5")).text = some (JsValue.number "5") ∧
    isObject (JsValue.number "5") = false ∧
    payloadDiagnostic ∉ (main (sampleRuntime selectAll) (envWith "5")).stderr ∧
    (main (sampleRuntime selectAll) (envWith "5")).required = true ∧
    (main (sampleRuntime selectAll) (envWith "5")).prompt.map (fun cfg => (cfg.choices, cfg.limit))
      = some ([], 10) :=
  ⟨rfl, rfl, by decide, rfl, rfl⟩

/-- C3, amended.  For every payload text that is valid JSON but whose
top-level value is not an object, the payload diagnostic is not printed and
the prompt library is asked for.  When the value is a number, a string, a
boolean or an array and the library loads, the prompt is constructed and run
with the default title, no row and limit 10, and the run ends as that prompt
run ends.  When the value is `null`, no prompt is constructed or run.  The
process still ends with exit code 1 whenever the prompt dies on its empty
choice list, as that of `enquirer` does. -/
theorem C3_non_object_top_level (rt : Runtime) (env : Env) (data : JsValue)
    (hparse : rt.parse (acquire env).text = some data)
    (hnon : isObject data = false) :
    payloadDiagnostic ∉ (main rt env).stderr ∧
    (main rt env).required = true ∧
    (data ≠ JsValue.null → data ≠ JsValue.undefined → requireEnquirer rt = Except.ok () →
      (main rt env).prompt = some emptyConfig ∧
        main rt env = finish emptyConfig (rt.run emptyConfig)) ∧
    (data = JsValue.null → (main rt env).prompt = none) ∧
    (rt.run emptyConfig = PromptResult.died → (main rt env).exit.status = 1) := by
  have hne : payloadDiagnostic ≠ enquirerDiagnostic := by decide
  cases hr : requireEnquirer rt with
  | error o =>
    have ho := requireEnquirer_error rt o hr
    have hmain : main rt env = fatal enquirerDiagnostic true := by
      simp [main, hparse, hr, ho]
    rw [hmain]
    refine ⟨by simp [fatal, hne], rfl, ?_, fun _ => rfl, fun _ => rfl⟩
    intro _ _ h
    cases h
  | ok u =>
    cases data with
    | object fields => simp [isObject] at hnon
    | undefined =>
      have hmain : main rt env = crash := by
        simp [main, hparse, hr, buildConfig, titleOf, getField]
      rw [hmain]
      exact ⟨by simp [crash], rfl, fun _ h => absurd rfl h, fun _ => rfl, fun _ => rfl⟩
    | null =>
      have hmain : main rt env = crash := by
        simp [main, hparse, hr, buildConfig, titleOf, getField]
      rw [hmain]
      exact ⟨by simp [crash], rfl, fun h => absurd rfl h, fun _ => rfl, fun _ => rfl⟩
    | bool b =>
      have hcfg : buildConfig (JsValue.bool b) = some emptyConfig := rfl
      have hmain := main_reached rt env _ _ hparse hr hcfg
      rw [hmain]
      refine ⟨?_, ?_, fun _ _ _ => ⟨finish_prompt _ _, rfl⟩, (fun h => by cases h),
        (fun h => by rw [h]; rfl)⟩
      · cases rt.run _ <;> simp [finish]
      · cases rt.run _ <;> rfl
    | number t =>
      have hcfg : buildConfig (JsValue.number t) = some emptyConfig := rfl
      have hmain := main_reached rt env _ _ hparse hr hcfg
      rw [hmain]
      refine ⟨?_, ?_, fun _ _ _ => ⟨finish_prompt _ _, rfl⟩, (fun h => by cases h),
        (fun h => by rw [h]; rfl)⟩
      · cases rt.run _ <;> simp [finish]
      · cases rt.run _ <;> rfl
    | string t =>
      have hcfg : buildConfig (JsValue.string t) = some emptyConfig := rfl
      have hmain := main_reached rt env _ _ hparse hr hcfg
      rw [hmain]
      refine ⟨?_, ?_, fun _ _ _ => ⟨finish_prompt _ _, rfl⟩, (fun h => by cases h),
        (fun h => by rw [h]; rfl)⟩
      · cases rt.run _ <;> simp [finish]
      · cases rt.run _ <;> rfl
    | array xs =>
      have hcfg : buildConfig (JsValue.array xs) = some emptyConfig := rfl
      have hmain := main_reached rt env _ _ hparse hr hcfg
      rw [hmain]
      refine ⟨?_, ?_, fun _ _ _ => ⟨finish_prompt _ _, rfl⟩, (fun h => by cases h),
        (fun h => by rw [h]; rfl)⟩
      · cases rt.run _ <;> simp [finish]
      · cases rt.run _ <;> rfl

/-- Witness of C3, amended: the payload text `5`, with a prompt that dies on
its empty choice list. -/
theorem C3_non_object_top_level_witness :
    (sampleRuntime selectAll).parse (acquire (envWith "5")).text = some (JsValue.number "5") ∧
    isObject (JsValue.number "5") = false ∧
    payloadDiagnostic ∉ (main (sampleRuntime selectAll) (envWith "5")).stderr ∧
    (main (sampleRuntime selectAll) (envWith "5")).required = true ∧
    (main (sampleRuntime selectAll) (envWith "5")).prompt = some emptyConfig ∧
    (main (sampleRuntime selectAll) (envWith "5")).exit.status = 1 :=
  have h := C3_non_object_top_level (sampleRuntime selectAll) (envWith "5")
    (JsValue.number "5") rfl rfl
  ⟨rfl, rfl, h.1, h.2.1,
    (h.2.2.1 (fun e => JsValue.noConfusion e) (fun e => JsValue.noConfusion e) rfl).1,
    h.2.2.2.2 rfl⟩

/-- C4 fails on the code: with `BZ_PAYLOAD` unset, no file argument and the
payload of the specification piped into standard input, standard input is not
read, the payload text is empty, and the run ends with the payload diagnostic
and exit code 1. -/
theorem C4_piped_stdin_not_read :
    (envPiped pickText).stdinIsTTY ≠ some true ∧
    (envPiped pickText).readStdin = some pickText ∧
    (acquire (envPiped pickText)).stdinRead = false ∧
    (acquire (envPiped pickText)).text = "" ∧
    (main (sampleRuntime selectAll) (envPiped pickText)).stderr = [payloadDiagnostic] ∧
    (main (sampleRuntime selectAll) (envPiped pickText)).exit = Exit.code 1 :=
  ⟨by decide, rfl, rfl, rfl, rfl, rfl⟩

/-- C5 (row limit).  For every successfully parsed payload, with `N` the number
of entries of its choices list (0 when there is none): the limit of every
prompt the run constructs is `max(10, min(N, 20))`, which is 10 for `N ≤ 10`,
`N` for `10 ≤ N ≤ 20`, 20 for `N ≥ 20`, never below 10 and never above 20;
and the run does construct the prompt when the payload is a selection request
of the data model and the prompt library loads. -/
theorem C5_row_limit (rt : Runtime) (env : Env) (data : JsValue)
    (hparse : rt.parse (acquire env).text = some data) :
    (∀ cfg, (main rt env).prompt = some cfg →
      cfg.limit = max 10 (min (choiceEntries data).length 20) ∧
      ((choiceEntries data).length ≤ 10 → cfg.limit = 10) ∧
      (10 ≤ (choiceEntries data).length → (choiceEntries data).length ≤ 20 →
        cfg.limit = (choiceEntries data).length) ∧
      (20 ≤ (choiceEntries data).length → cfg.limit = 20) ∧
      10 ≤ cfg.limit ∧ cfg.limit ≤ 20) ∧
    (isSelectionRequest data = true → requireEnquirer rt = Except.ok () →
      ∃ cfg, (main rt env).prompt = some cfg) := by
  refine ⟨?_, request_reaches_prompt rt env data hparse⟩
  intro cfg hprompt
  have hcfg := parsed_config rt env data cfg hparse hprompt
  have hlen := (mapChoices_spec _ _ (config_rows data cfg hcfg)).1
  have hlim : cfg.limit = max 10 (min (choiceEntries data).length 20) := by
    rw [(buildConfig_spec data cfg hcfg).2.2, limitOf_eq, hlen]
  rw [hlim]
  refine ⟨rfl, ?_, ?_, ?_, ?_, ?_⟩ <;> omega

/-- Witness of C5: the payload of the specification, which has two entries. -/
theorem C5_row_limit_witness :
    (sampleRuntime selectAll).parse (acquire (envWith pickText)).text = some pickData ∧
    (choiceEntries pickData).length = 2 ∧
    ∃ cfg, (main (sampleRuntime selectAll) (envWith pickText)).prompt = some cfg ∧
      cfg.limit = 10 :=
  have h := C5_row_limit (sampleRuntime selectAll) (envWith pickText) pickData rfl
  ⟨rfl, rfl, (h.2 rfl rfl).elim (fun cfg hc => ⟨cfg, hc, ((h.1 cfg hc).2.1 (by decide))⟩)⟩

/-- C6, as the specification states it, fails: the entries of this payload have
the message fields `0`, `false` and the empty string, whose string forms are
`0`, `false` and the empty text, and the messages handed to the prompt are
the names `a`, `b` and `c`. -/
theorem C6_counterexample :
    (sampleRuntime selectAll).parse (acquire (envWith falsyText)).text = some falsyData ∧
    (choiceEntries falsyData).map (fun c => (getField c "message").bind toStr)
      = [some "0", some "false", some ""] ∧
    (main (sampleRuntime selectAll) (envWith falsyText)).prompt.map
      (fun cfg => cfg.choices.map (fun row => row.message)) = some ["a", "b", "c"] :=
  ⟨rfl, rfl, rfl⟩

/-- C6, amended.  For every entry of the choices list of a successfully parsed
payload and the row the prompt is handed for it: the message of the row is the
string form of the entry's message when that message is truthy (a non-empty
string, a number other than 0, `true`, an array or an object), and the string
form of the entry's name otherwise, that is when the entry has no message
field or its message is `null`, `false`, `0` or the empty string.  The run does
construct the prompt when the payload is a selection request of the data model
and the prompt library loads. -/
theorem C6_message_normalization (rt : Runtime) (env : Env) (data : JsValue)
    (hparse : rt.parse (acquire env).text = some data) :
    (∀ cfg, (main rt env).prompt = some cfg →
      cfg.choices.length = (choiceEntries data).length ∧
      ∀ (i : Nat) (c : JsValue) (row : Choice),
        (choiceEntries data)[i]? = some c → cfg.choices[i]? = some row →
        ∃ n m, getField c "name" = some n ∧ getField c "message" = some m ∧
          (truthy m = true → toStr m = some row.message) ∧
          (truthy m = false → toStr n = some row.message) ∧
          (m = JsValue.undefined ∨ m = JsValue.null ∨ m = JsValue.bool false ∨
            m = JsValue.number "0" ∨ m = JsValue.string "" → toStr n = some row.message) ∧
          (∀ s, m = JsValue.string s → s ≠ "" → row.message = s) ∧
          (∀ t, m = JsValue.number t → t ≠ "0" → t ≠ "NaN" → row.message = t) ∧
          (m = JsValue.bool true → row.message = "true")) ∧
    (isSelectionRequest data = true → requireEnquirer rt = Except.ok () →
      ∃ cfg, (main rt env).prompt = some cfg) := by
  refine ⟨?_, request_reaches_prompt rt env data hparse⟩
  intro cfg hprompt
  have hcfg := parsed_config rt env data cfg hparse hprompt
  obtain ⟨hlen, hget⟩ := mapChoices_spec _ _ (config_rows data cfg hcfg)
  refine ⟨hlen, ?_⟩
  intro i c row hc hrow
  obtain ⟨n, m, hn, hm, hname, _, htrue, hfalse⟩ :=
    normalizeChoice_fields c row (hget i c row hc hrow)
  have hfalse2 : truthy m = false → toStr n = some row.message := by
    intro h
    rw [hfalse h]
    exact hname
  refine ⟨n, m, hn, hm, htrue, hfalse2, ?_, ?_, ?_, ?_⟩
  · intro h
    apply hfalse2
    rcases h with h | h | h | h | h <;> subst h <;> rfl
  · intro s hs hne
    subst hs
    have := htrue (by simp [truthy, hne])
    simpa [toStr] using this.symm
  · intro t ht h0 hnan
    subst ht
    have := htrue (by simp [truthy, h0, hnan])
    simpa [toStr] using this.symm
  · intro h
    subst h
    have := htrue rfl
    simpa [toStr] using this.symm

/-- Witness of C6, amended: the payload of the specification. -/
theorem C6_message_normalization_witness :
    (sampleRuntime selectAll).parse (acquire (envWith pickText)).text = some pickData ∧
    ∃ cfg, (main (sampleRuntime selectAll) (envWith pickText)).prompt = some cfg ∧
      cfg.choices.length = 2 :=
  have h := C6_message_normalization (sampleRuntime selectAll) (envWith pickText) pickData rfl
  ⟨rfl, (h.2 rfl rfl).elim (fun cfg hc => ⟨cfg, hc, (h.1 cfg hc).1⟩)⟩

/-- C7 (choice list structure).  For every successfully parsed object payload
and every prompt the run constructs: the choice list handed to the prompt has
as many rows as the payload's choices list has entries (none when `choices` is
absent), and the name and the value of the i-th row are the string form of the
name of the i-th entry, so that entries with equal names stay separate rows in
their places.  The run does construct the prompt when the payload is a
selection request of the data model and the prompt library loads. -/
theorem C7_choice_list_structure (rt : Runtime) (env : Env) (data : JsValue)
    (hparse : rt.parse (acquire env).text = some data)
    (hobj : isObject data = true) :
    (∀ cfg, (main rt env).prompt = some cfg →
      cfg.choices.length = (choiceEntries data).length ∧
      (getField data "choices" = some JsValue.undefined → cfg.choices = []) ∧
      ∀ (i : Nat) (c : JsValue) (row : Choice),
        (choiceEntries data)[i]? = some c → cfg.choices[i]? = some row →
        ∃ n, getField c "name" = some n ∧ toStr n = some row.name ∧
          toStr n = some row.value) ∧
    (isSelectionRequest data = true → requireEnquirer rt = Except.ok () →
      ∃ cfg, (main rt env).prompt = some cfg) := by
  refine ⟨?_, request_reaches_prompt rt env data hparse⟩
  intro cfg hprompt
  have hcfg := parsed_config rt env data cfg hparse hprompt
  obtain ⟨hlen, hget⟩ := mapChoices_spec _ _ (config_rows data cfg hcfg)
  refine ⟨hlen, ?_, ?_⟩
  · intro habs
    have hnil : choiceEntries data = [] := by
      cases data with
      | object fields =>
        simp only [getField, Option.some.injEq] at habs
        simp [choiceEntries, habs]
      | _ => simp [isObject] at hobj
    rw [hnil] at hlen
    exact List.length_eq_zero.mp hlen
  · intro i c row hc hrow
    obtain ⟨n, m, hn, _, hname, hval, _, _⟩ :=
      normalizeChoice_fields c row (hget i c row hc hrow)
    exact ⟨n, hn, hname, by rw [hval]; exact hname⟩

/-- Witness of C7: the payload of the specification. -/
theorem C7_choice_list_structure_witness :
    (sampleRuntime selectAll).parse (acquire (envWith pickText)).text = some pickData ∧
    isObject pickData = true ∧
    ∃ cfg, (main (sampleRuntime selectAll) (envWith pickText)).prompt = some cfg ∧
      cfg.choices.length = (choiceEntries pickData).length :=
  have h := C7_choice_list_structure (sampleRuntime selectAll) (envWith pickText) pickData
    rfl rfl
  ⟨rfl, rfl, (h.2 rfl rfl).elim (fun cfg hc => ⟨cfg, hc, (h.1 cfg hc).1⟩)⟩

/-- C8 (cancellation).  Whenever the run constructed the prompt and the prompt
run fails, the process ends with exit code 0 and standard output is empty;
a payload that is not valid JSON, and a prompt library that cannot be loaded,
make the process end with exit code 1 instead. -/
theorem C8_cancellation (rt : Runtime) (env : Env) (cfg : PromptConfig)
    (hprompt : (main rt env).prompt = some cfg)
    (hrun : rt.run cfg = PromptResult.rejected) :
    ((main rt env).exit = Exit.code 0 ∧ (main rt env).stdout = [] ∧
      (main rt env).stdoutText = "") ∧
    (∀ (rt1 : Runtime) (env1 : Env), rt1.parse (acquire env1).text = none →
      (main rt1 env1).exit = Exit.code 1 ∧ (main rt1 env1).exit ≠ (main rt env).exit) ∧
    (∀ (rt1 : Runtime) (env1 : Env) (data : JsValue),
      rt1.parse (acquire env1).text = some data →
      rt1.resolveNormal = false → rt1.resolveVendored = false →
      (main rt1 env1).exit = Exit.code 1 ∧ (main rt1 env1).exit ≠ (main rt env).exit) := by
  have hmain := main_of_prompt rt env cfg hprompt
  rw [hrun] at hmain
  have hexit : (main rt env).exit = Exit.code 0 := by rw [hmain]; rfl
  refine ⟨⟨hexit, by rw [hmain]; rfl, by rw [hmain]; rfl⟩, ?_, ?_⟩
  · intro rt1 env1 hp
    have h1 : main rt1 env1 = fatal payloadDiagnostic false := by simp [main, hp]
    rw [h1, hexit]
    exact ⟨rfl, by decide⟩
  · intro rt1 env1 data hp h1 h2
    have h3 : main rt1 env1 = fatal enquirerDiagnostic true := by
      simp [main, hp, requireEnquirer, h1, h2]
    rw [h3, hexit]
    exact ⟨rfl, by decide⟩

/-- Witness of C8: the payload of the specification, the user cancels. -/
theorem C8_cancellation_witness :
    (main (sampleRuntime cancel) (envWith pickText)).prompt.isSome = true ∧
    (main (sampleRuntime cancel) (envWith pickText)).exit = Exit.code 0 ∧
    (main (sampleRuntime cancel) (envWith pickText)).stdoutText = "" :=
  have h := C8_cancellation (sampleRuntime cancel) (envWith pickText)
    { name := "selection", message := JsValue.string "Pick",
      choices := [⟨"a", "a", "a"⟩, ⟨"b", "B", "b"⟩], hint := hintText, limit := 10,
      stdin := Stream.stdin, stdout := Stream.stderr } rfl rfl
  ⟨rfl, h.1.1, h.1.2.2⟩

/-- C9 fails on the code: the payload `{"choices":[{"name":"a\nb"}]}` has one
entry, whose name holds a newline.  The prompt is handed that name, the user
selects the row, and the run writes the one chunk `a\nb\n`: the lines on
standard output are `a` and `b`, and neither is the string form of the name of
an entry of the choices list. -/
theorem C9_newline_name_two_lines :
    (sampleRuntime selectAll).parse (acquire (envWith newlineText)).text = some newlineData ∧
    (choiceEntries newlineData).map (fun c => (getField c "name").bind toStr)
      = [some "a\nb"] ∧
    (main (sampleRuntime selectAll) (envWith newlineText)).prompt = some newlineConfig ∧
    (sampleRuntime selectAll).run newlineConfig
      = PromptResult.resolved (JsValue.array [JsValue.string "a\nb"]) ∧
    (main (sampleRuntime selectAll) (envWith newlineText)).exit = Exit.code 0 ∧
    (main (sampleRuntime selectAll) (envWith newlineText)).stdout = ["a\nb\n"] ∧
    recoverLines (main (sampleRuntime selectAll) (envWith newlineText)).stdoutText
      = ["a", "b"] ∧
    (∀ line ∈ recoverLines (main (sampleRuntime selectAll) (envWith newlineText)).stdoutText,
      ∀ c ∈ choiceEntries newlineData, (getField c "name").bind toStr ≠ some line) :=
  ⟨rfl, rfl, rfl, rfl, rfl, rfl, rfl, by decide⟩

/-- C10 (line protocol round trip).  Whenever the run constructed the prompt
and the prompt resolves to the sequence of the strings `names`: when no name
holds a newline character, splitting the text on standard output on the
newline and dropping the final piece gives back exactly `names`, empty names
included; and there is a run whose selected names include one with a newline
in it, for which the number of recovered lines is not the number of names. -/
theorem C10_line_round_trip (rt : Runtime) (env : Env) (cfg : PromptConfig)
    (names : List String)
    (hprompt : (main rt env).prompt = some cfg)
    (hrun : rt.run cfg = PromptResult.resolved (JsValue.array (names.map JsValue.string))) :
    ((∀ n ∈ names, Char.ofNat 10 ∉ n.data) →
      recoverLines (main rt env).stdoutText = names) ∧
    (∃ (rt1 : Runtime) (env1 : Env) (cfg1 : PromptConfig) (names1 : List String),
      (main rt1 env1).prompt = some cfg1 ∧
      rt1.run cfg1 = PromptResult.resolved (JsValue.array (names1.map JsValue.string)) ∧
      (∃ n ∈ names1, Char.ofNat 10 ∈ n.data) ∧
      (recoverLines (main rt1 env1).stdoutText).length ≠ names1.length) := by
  constructor
  · intro hfree
    rw [Outcome.stdoutText, stdout_of_strings rt env cfg _ names hprompt hrun rfl]
    exact recoverLines_join names hfree
  · refine ⟨sampleRuntime selectAll, envWith newlineText,
      { name := "selection", message := JsValue.string defaultTitle,
        choices := [⟨"a\nb", "a\nb", "a\nb"⟩], hint := hintText, limit := 10,
        stdin := Stream.stdin, stdout := Stream.stderr }, ["a\nb"], rfl, rfl, ?_, ?_⟩
    · exact ⟨"a\nb", by simp, by decide⟩
    · decide

/-- Witness of C10: the payload of the specification, both rows selected. -/
theorem C10_line_round_trip_witness :
    (main (sampleRuntime selectAll) (envWith pickText)).prompt.isSome = true ∧
    recoverLines (main (sampleRuntime selectAll) (envWith pickText)).stdoutText = ["a", "b"] :=
  have h := C10_line_round_trip (sampleRuntime selectAll) (envWith pickText)
    { name := "selection", message := JsValue.string "Pick",
      choices := [⟨"a", "a", "a"⟩, ⟨"b", "B", "b"⟩], hint := hintText, limit := 10,
      stdin := Stream.stdin, stdout := Stream.stderr }
    ["a", "b"] rfl rfl
  ⟨rfl, h.1 (by decide)⟩

end Select
